import Mathlib

/-!
Verification of the starfield renderer scripts (square.py, square4.py,
square5.py, square6.py) against their natural-language specification.

The scripts are embedded shallowly over the rationals: every numeric value
that the Python code manipulates as a float is modelled as a `ℚ`, random
draws (`random.uniform(a, b)`) become explicit parameters constrained to
`[a, b]` in the theorems, and the cosine/sine of a rotation angle are
passed as an explicit pair (the source calls `math.cos`/`math.sin` once
per angle and only ever uses the resulting two values).  Fallible
operations (`project_point` returning `None`) become `Option`.
Each script variant lives in its own namespace.
-/

/-- A 3D point `(x, y, z)`, as the coordinate triples used throughout the
scripts. -/
structure Vec3 where
  x : ℚ
  y : ℚ
  z : ℚ
deriving DecidableEq, Repr, Inhabited

/-- The cosine/sine pair of one rotation angle, i.e. the two values
`math.cos(angle)`, `math.sin(angle)` that the rotation code computes from
an angle and then uses exclusively. -/
structure Angle where
  c : ℚ
  s : ℚ
deriving DecidableEq, Repr

namespace Square6

/-- Constant `CAMERA_NEAR_CLIP = 1.0` of square6.py. -/
def CAMERA_NEAR_CLIP : ℚ := 1

/-- Constant `CAMERA_FAR_CLIP = 6000.0` of square6.py. -/
def CAMERA_FAR_CLIP : ℚ := 6000

/-- Constant `WORLD_SIZE = 3000` of square6.py. -/
def WORLD_SIZE : ℚ := 3000

/-- Constant `CAMERA_DEFAULT_Z = 300` of square6.py. -/
def CAMERA_DEFAULT_Z : ℚ := 300

/-- Constant `MAX_STAR_SIZE = 5` of square6.py. -/
def MAX_STAR_SIZE : ℚ := 5

/-- Function `lerp(a, b, t)` of square6.py: `a + (b - a) * t`. -/
def lerp (a b t : ℚ) : ℚ := a + (b - a) * t

/-- Function `rotate_point_3d(point, angle_x, angle_y, angle_z)` of
square6.py: successive X, Y, Z axis rotations, each angle given by its
cosine/sine pair. -/
def rotate_point_3d (p : Vec3) (ax ay az : Angle) : Vec3 :=
  let y1 := p.y * ax.c - p.z * ax.s
  let z1 := p.y * ax.s + p.z * ax.c
  let x2 := p.x * ay.c + z1 * ay.s
  let z2 := -p.x * ay.s + z1 * ay.c
  let x3 := x2 * az.c - y1 * az.s
  let y3 := x2 * az.s + y1 * az.c
  ⟨x3, y3, z2⟩

/-- The `size_factor` computed inside `project_point` of square6.py:
`max(0.1, 1.0 - (z - CAMERA_NEAR_CLIP) / (CAMERA_FAR_CLIP - CAMERA_NEAR_CLIP))`. -/
def size_factor (z : ℚ) : ℚ :=
  max (1/10) (1 - (z - CAMERA_NEAR_CLIP) / (CAMERA_FAR_CLIP - CAMERA_NEAR_CLIP))

/-- Function `project_point` of square6.py: translate into camera space,
clip on `z`, then perspective-divide.  Returns
`(projected_x, projected_y, size_factor, z)` or `none` when clipped. -/
def project_point (p : Vec3) (camera_x camera_y camera_z : ℚ)
    (screen_center_x screen_center_y : ℚ)
    (projection_distance : ℚ := CAMERA_DEFAULT_Z) : Option (ℚ × ℚ × ℚ × ℚ) :=
  let x := p.x - camera_x
  let y := p.y - camera_y
  let z := p.z - camera_z
  if z < CAMERA_NEAR_CLIP ∨ z > CAMERA_FAR_CLIP then none
  else
    let factor := projection_distance / z
    some (x * factor + screen_center_x, y * factor + screen_center_y,
          size_factor z, z)

/-- The mutable numeric state of a square6.py `Star`. -/
structure Star where
  x : ℚ
  y : ℚ
  z : ℚ
  size : ℚ
  initial_size : ℚ
  trail_length : ℚ
  trail_alpha : ℚ
deriving DecidableEq, Repr

/-- The random draws consumed by one `Star.update` call of square6.py:
`rx, ry, rz` are the `random.uniform` results used by `reset()`
(`rx, ry ∈ [-WORLD_SIZE, WORLD_SIZE]`,
`rz ∈ [CAMERA_DEFAULT_Z + 100, CAMERA_FAR_CLIP - 100]`) and `u` is the
`random.uniform(0, WORLD_SIZE / 2)` draw of whichever reassignment branch
runs afterwards. -/
structure StarRand where
  rx : ℚ
  ry : ℚ
  rz : ℚ
  u : ℚ
deriving DecidableEq, Repr

/-- Method `Star.update(delta_z, warp_factor)` of square6.py.  Moves the
star along z (with the extra `* 20` warp streak term), smooths
trail/size, and when the depth leaves `[CAMERA_NEAR_CLIP, CAMERA_FAR_CLIP]`
runs `reset()` followed by the far/near reassignment of `self.z`. -/
def Star.update (st : Star) (delta_z : ℚ) (warp_factor : ℚ) (r : StarRand) :
    Star :=
  let z1 := st.z + delta_z
  let z2 := z1 - delta_z * warp_factor * 20
  let tl := if warp_factor > 1/10 then
      lerp st.trail_length (MAX_STAR_SIZE * 30 * warp_factor) (1/10)
    else lerp st.trail_length 0 (1/10)
  let ta := if warp_factor > 1/10 then lerp st.trail_alpha 50 (1/10)
    else lerp st.trail_alpha 255 (1/10)
  let sz := if warp_factor > 1/10 then lerp st.size (MAX_STAR_SIZE * 3) (1/10)
    else lerp st.size st.initial_size (1/10)
  if z2 < CAMERA_NEAR_CLIP ∨ z2 > CAMERA_FAR_CLIP then
    -- `self.reset()` assigns fresh x, y, z, restores size/trail fields …
    let zr := r.rz
    -- … and then the update method immediately overwrites `self.z` again,
    -- testing the freshly reset depth against the far clip.
    let zf := if zr > CAMERA_FAR_CLIP then CAMERA_NEAR_CLIP + WORLD_SIZE + r.u
      else CAMERA_FAR_CLIP - r.u
    { x := r.rx, y := r.ry, z := zf, size := st.initial_size,
      initial_size := st.initial_size, trail_length := 0, trail_alpha := 255 }
  else
    { st with z := z2, size := sz, trail_length := tl, trail_alpha := ta }

/-- One `Star.update` call's inputs in square6.py: the camera depth delta,
the warp factor, and the random draws consumed. -/
structure StarStep where
  delta_z : ℚ
  warp_factor : ℚ
  r : StarRand
deriving DecidableEq, Repr

/-- The random draws of a square6.py `Star.update` call, constrained to the
ranges of the `random.uniform` calls that produce them. -/
def StarRand.Valid (r : StarRand) : Prop :=
  CAMERA_DEFAULT_Z + 100 ≤ r.rz ∧ r.rz ≤ CAMERA_FAR_CLIP - 100 ∧
    0 ≤ r.u ∧ r.u ≤ WORLD_SIZE / 2

instance (r : StarRand) : Decidable r.Valid :=
  inferInstanceAs (Decidable (CAMERA_DEFAULT_Z + 100 ≤ r.rz ∧
    r.rz ≤ CAMERA_FAR_CLIP - 100 ∧ 0 ≤ r.u ∧ r.u ≤ WORLD_SIZE / 2))

/-- Run a `Star` through a sequence of `update` calls, recording every
intermediate state (`List.scanl`, head = initial state). -/
def Star.run (st : Star) (steps : List StarStep) : List Star :=
  List.scanl (fun s stp => s.update stp.delta_z stp.warp_factor stp.r) st steps

end Square6

namespace Square5

/-- Constant `CAMERA_NEAR_CLIP = 1.0` of square5.py. -/
def CAMERA_NEAR_CLIP : ℚ := 1

/-- Constant `CAMERA_FAR_CLIP = 5000.0` of square5.py. -/
def CAMERA_FAR_CLIP : ℚ := 5000

/-- Constant `WORLD_SIZE = 2000` of square5.py. -/
def WORLD_SIZE : ℚ := 2000

/-- Constant `CAMERA_DEFAULT_Z = 300` of square5.py. -/
def CAMERA_DEFAULT_Z : ℚ := 300

/-- Constant `MAX_STAR_SIZE = 5` of square5.py. -/
def MAX_STAR_SIZE : ℚ := 5

/-- Function `lerp(a, b, t)` of square5.py. -/
def lerp (a b t : ℚ) : ℚ := a + (b - a) * t

/-- Function `rotate_point_3d` of square5.py (the "Corrected Y-rotation"
variant, identical to square6.py's). -/
def rotate_point_3d (p : Vec3) (ax ay az : Angle) : Vec3 :=
  let y1 := p.y * ax.c - p.z * ax.s
  let z1 := p.y * ax.s + p.z * ax.c
  let x2 := p.x * ay.c + z1 * ay.s
  let z2 := -p.x * ay.s + z1 * ay.c
  let x3 := x2 * az.c - y1 * az.s
  let y3 := x2 * az.s + y1 * az.c
  ⟨x3, y3, z2⟩

/-- Function `project_point` of square5.py.  Same clip test and
perspective divide as square6.py, but the returned tuple is only
`(projected_x, projected_y, size_factor)` — the view depth `z` is not
returned. -/
def project_point (p : Vec3) (camera_x camera_y camera_z : ℚ)
    (screen_center_x screen_center_y : ℚ)
    (projection_distance : ℚ := CAMERA_DEFAULT_Z) : Option (ℚ × ℚ × ℚ) :=
  let x := p.x - camera_x
  let y := p.y - camera_y
  let z := p.z - camera_z
  if z < CAMERA_NEAR_CLIP ∨ z > CAMERA_FAR_CLIP then none
  else
    let factor := projection_distance / z
    let normalized_z := (z - CAMERA_NEAR_CLIP) / (CAMERA_FAR_CLIP - CAMERA_NEAR_CLIP)
    some (x * factor + screen_center_x, y * factor + screen_center_y,
          max (1/10) (1 - normalized_z))

/-- The mutable numeric state of a square5.py `Star`. -/
structure Star where
  x : ℚ
  y : ℚ
  z : ℚ
  size : ℚ
  initial_size : ℚ
  trail_length : ℚ
  trail_alpha : ℚ
deriving DecidableEq, Repr

/-- Method `Star.update(delta_z, warp_factor)` of square5.py.  Unlike
square6.py it does not call `reset()` in the out-of-range branch: only
`self.z` is reassigned.  `u` is the `random.uniform(0, WORLD_SIZE)` draw
of whichever reassignment branch runs. -/
def Star.update (st : Star) (delta_z : ℚ) (warp_factor : ℚ) (u : ℚ) : Star :=
  let z1 := st.z + delta_z
  let z2 := z1 - delta_z * warp_factor * 10
  let tl := if warp_factor > 1/10 then
      lerp st.trail_length (MAX_STAR_SIZE * 20 * warp_factor) (1/10)
    else lerp st.trail_length 0 (1/10)
  let ta := if warp_factor > 1/10 then lerp st.trail_alpha 50 (1/10)
    else lerp st.trail_alpha 255 (1/10)
  let sz := if warp_factor > 1/10 then lerp st.size (MAX_STAR_SIZE * 2) (1/10)
    else lerp st.size st.initial_size (1/10)
  let zf := if z2 < CAMERA_NEAR_CLIP ∨ z2 > CAMERA_FAR_CLIP then
      if z2 > CAMERA_FAR_CLIP then CAMERA_NEAR_CLIP + WORLD_SIZE + u
      else CAMERA_FAR_CLIP - 100 - u
    else z2
  { st with z := zf, size := sz, trail_length := tl, trail_alpha := ta }

/-- One `Star.update` call's inputs in square5.py. -/
structure StarStep where
  delta_z : ℚ
  warp_factor : ℚ
  u : ℚ
deriving DecidableEq, Repr

/-- Run a square5.py `Star` through a sequence of `update` calls,
recording every intermediate state. -/
def Star.run (st : Star) (steps : List StarStep) : List Star :=
  List.scanl (fun s stp => s.update stp.delta_z stp.warp_factor stp.u) st steps

end Square5

namespace Square4

/-- Function `rotate_point_3d` of square4.py.  Its Y-axis rotation uses
the opposite sine sign from square5.py/square6.py. -/
def rotate_point_3d (p : Vec3) (ax ay az : Angle) : Vec3 :=
  let y1 := p.y * ax.c - p.z * ax.s
  let z1 := p.y * ax.s + p.z * ax.c
  let x2 := p.x * ay.c - z1 * ay.s
  let z2 := p.x * ay.s + z1 * ay.c
  let x3 := x2 * az.c - y1 * az.s
  let y3 := x2 * az.s + y1 * az.c
  ⟨x3, y3, z2⟩

/-- Function `project_point(point, projection_center_x,
projection_center_y, camera_z=200)` of square4.py: no clipping, the
divisor is `camera_z - z + 0.001`. -/
def project_point (p : Vec3) (projection_center_x projection_center_y : ℚ)
    (camera_z : ℚ := 200) : ℚ × ℚ :=
  let factor := camera_z / (camera_z - p.z + 1/1000)
  (p.x * factor + projection_center_x, p.y * factor + projection_center_y)

/-- The divisor of square4.py's `project_point` perspective divide. -/
def project_denom (z : ℚ) (camera_z : ℚ := 200) : ℚ := camera_z - z + 1/1000

end Square4

namespace SquareOne

/-- The mutable numeric state of a square.py `Star` (`x`, `y`, `z`,
`size`); construction draws `z = random.uniform(1, 1000)`. -/
structure Star where
  x : ℚ
  y : ℚ
  z : ℚ
  size : ℚ
deriving DecidableEq, Repr

/-- The divisor `200 - self.z + 0.001` of the perspective factor in
square.py's `Star.project`. -/
def Star.denom (st : Star) : ℚ := 200 - st.z + 1/1000

/-- The perspective factor `200 / (200 - self.z + 0.001)` of square.py's
`Star.project` (a Python float division that raises when the divisor is
exactly zero; embedded as total `ℚ` division). -/
def Star.factor (st : Star) : ℚ := 200 / st.denom

/-- Method `Star.update` of square.py: `z -= 5`, respawning at
`z = 1000` with fresh `x, y` when `z < 1`. -/
def Star.update (st : Star) (rx ry : ℚ) : Star :=
  let z1 := st.z - 5
  if z1 < 1 then { st with x := rx, y := ry, z := 1000 }
  else { st with z := z1 }

end SquareOne

/-- Python's `int()` applied to a float: truncation toward zero. -/
def python_int (q : ℚ) : ℤ := if q < 0 then -⌊-q⌋ else ⌊q⌋

/-- Stable insertion of `a` into a list kept in descending `key` order;
`a` goes after any earlier element with an equal or larger key.  Together
with `sort_desc` this models `list.sort(key=..., reverse=True)` on the
`(depth, color, points)` tuples of the main loops. -/
def insert_desc {α : Type} (key : α → ℚ) (a : α) : List α → List α
  | [] => [a]
  | b :: l => if key a ≤ key b then b :: insert_desc key a l else a :: b :: l

/-- Stable sort into descending `key` order (Python
`list.sort(key=..., reverse=True)`). -/
def sort_desc {α : Type} (key : α → ℚ) (l : List α) : List α :=
  l.foldl (fun acc a => insert_desc key a acc) []

namespace Square6

/-- One particle of square6.py (the color tuple, which is threaded through
unchanged and never entered into arithmetic, is omitted). -/
structure Particle where
  x : ℚ
  y : ℚ
  z : ℚ
  size : ℚ
  vx : ℚ
  vy : ℚ
  vz : ℚ
  lifetime : ℚ
  current_lifetime : ℚ
deriving DecidableEq, Repr

/-- Method `Particle.update(dt, camera_delta_z)` of square6.py. -/
def Particle.update (p : Particle) (dt camera_delta_z : ℚ) : Particle :=
  { p with
    x := p.x + p.vx * dt
    y := p.y + p.vy * dt
    z := p.z + p.vz * dt + camera_delta_z
    current_lifetime := p.current_lifetime - dt }

/-- The five `random.uniform` draws consumed when one particle is emitted. -/
structure ParticleDraw where
  vx : ℚ
  vy : ℚ
  vz : ℚ
  size : ℚ
  lifetime : ℚ
deriving DecidableEq, Repr

/-- The numeric state of a square6.py `ParticleSystem` (square5.py's class
is line-for-line the same logic). -/
structure ParticleSystem where
  source_pos_relative : Vec3
  max_particles : ℕ
  particles : List Particle
  emission_rate : ℚ
  time_since_last_emission : ℚ

/-- The emission loop of `ParticleSystem.update`:
`for _ in range(n): if len(particles) < max_particles: append(...)`;
`mk i` is the particle built on iteration `i` from that iteration's
random draws. -/
def emit_loop (mk : ℕ → Particle) (maxp : ℕ) :
    ℕ → ℕ → List Particle → List Particle
  | _, 0, ps => ps
  | i, n + 1, ps =>
      emit_loop mk maxp (i + 1) n (if ps.length < maxp then ps ++ [mk i] else ps)

/-- Method `ParticleSystem.update(dt, parent_pos, parent_rotation,
camera_delta_z)` of square6.py (identical in square5.py): accumulate `dt`,
emit `int(accumulator * emission_rate)` particles subject to the
`max_particles` cap, deduct the emitted count from the accumulator, then
update every particle and keep those with positive remaining lifetime. -/
def ParticleSystem.update (sys : ParticleSystem) (dt : ℚ) (parent_pos : Vec3)
    (rot : Angle × Angle × Angle) (camera_delta_z : ℚ)
    (draws : ℕ → ParticleDraw) : ParticleSystem :=
  let t := sys.time_since_last_emission + dt
  let particles_to_emit : ℤ := python_int (t * sys.emission_rate)
  let mk : ℕ → Particle := fun i =>
    let rs := rotate_point_3d sys.source_pos_relative rot.1 rot.2.1 rot.2.2
    let d := draws i
    { x := parent_pos.x + rs.x, y := parent_pos.y + rs.y,
      z := parent_pos.z + rs.z, size := d.size,
      vx := d.vx, vy := d.vy, vz := d.vz,
      lifetime := d.lifetime, current_lifetime := d.lifetime }
  let ps1 := emit_loop mk sys.max_particles 0 particles_to_emit.toNat sys.particles
  let ps2 := (ps1.map (fun p => p.update dt camera_delta_z)).filter
      (fun p => decide (0 < p.current_lifetime))
  { sys with particles := ps2,
             time_since_last_emission := t - (particles_to_emit : ℚ) / sys.emission_rate }

/-- One `ParticleSystem.update` call's inputs. -/
structure PSStep where
  dt : ℚ
  parent_pos : Vec3
  rot : Angle × Angle × Angle
  camera_delta_z : ℚ
  draws : ℕ → ParticleDraw

/-- Run a `ParticleSystem` through a sequence of `update` calls, recording
every intermediate state. -/
def ParticleSystem.run (sys : ParticleSystem) (steps : List PSStep) :
    List ParticleSystem :=
  List.scanl
    (fun s stp => s.update stp.dt stp.parent_pos stp.rot stp.camera_delta_z stp.draws)
    sys steps

/-- The per-tick warp smoothing of square6.py's `main` while warp is
toggled on, starting from `warp_factor = 0`:
`warp_factor = lerp(warp_factor, 1.0, 5.0 * dt)` each tick. -/
def warp_factor_seq (dt : ℚ) : ℕ → ℚ
  | 0 => 0
  | n + 1 => lerp (warp_factor_seq dt n) 1 (5 * dt)

/-- The pose and mesh data a `Base3DObject` contributes to the main loop:
local vertices, faces as index lists, rotation angles, uniform scale, and
world position. -/
structure Obj where
  vertices : List Vec3
  faces : List (List ℕ)
  ax : Angle
  ay : Angle
  az : Angle
  scale : ℚ
  pos : Vec3

/-- The `transformed_vertices` list the main loop builds for an object:
rotate each local vertex, scale it, and translate by the object's world
position. -/
def Obj.transformed_vertices (o : Obj) : List Vec3 :=
  o.vertices.map fun v =>
    let r := rotate_point_3d v o.ax o.ay o.az
    ⟨r.x * o.scale + o.pos.x, r.y * o.scale + o.pos.y, r.z * o.scale + o.pos.z⟩

/-- Gather the projection results of a face's vertex indices; `some`
exactly when every index is in range and none of the projections was
clipped (the `all(... is not None ...)` guard of the main loops; the
scripts only ever index with in-range face indices). -/
def lookup_all {α : Type} (pv : List (Option α)) : List ℕ → Option (List α)
  | [] => some []
  | i :: rest =>
      match pv.getD i none, lookup_all pv rest with
      | some t, some ts => some (t :: ts)
      | _, _ => none

/-- The face-collection step of square6.py's `main` for one object:
transform and project every vertex, keep the faces whose vertices all
projected, and record `(face_avg_z, points_2d)` where `face_avg_z`
averages the *fourth* component of the projection results (the
camera-relative view depth).  The face color is irrelevant to the claims
and omitted. -/
def collect_faces (cam : Vec3) (scx scy : ℚ) (o : Obj) :
    List (ℚ × List (ℚ × ℚ)) :=
  let tv := o.transformed_vertices
  let pv := tv.map fun v => project_point v cam.x cam.y cam.z scx scy
  o.faces.filterMap fun face =>
    (lookup_all pv face).map fun ts =>
      ((ts.map fun t => t.2.2.2).sum / (face.length : ℚ),
       ts.map fun t => (t.1, t.2.1))

end Square6

namespace Square5

/-- Same pose/mesh record as `Square6.Obj`, for square5.py's main loop. -/
structure Obj where
  vertices : List Vec3
  faces : List (List ℕ)
  ax : Angle
  ay : Angle
  az : Angle
  scale : ℚ
  pos : ℚ × ℚ × ℚ

/-- The `transformed_vertices` list of square5.py's main loop. -/
def Obj.transformed_vertices (o : Obj) : List Vec3 :=
  o.vertices.map fun v =>
    let r := rotate_point_3d v o.ax o.ay o.az
    ⟨r.x * o.scale + o.pos.1, r.y * o.scale + o.pos.2.1, r.z * o.scale + o.pos.2.2⟩

/-- The face-collection step of square5.py's `main` for one object.  The
depth key is `sum(transformed_vertices[v_idx][2] for v_idx in face) /
len(face)` — the average *raw transformed-world* z of the face's
vertices, not the camera-relative view depth. -/
def collect_faces (cam : Vec3) (scx scy : ℚ) (o : Obj) :
    List (ℚ × List (ℚ × ℚ)) :=
  let tv := o.transformed_vertices
  let pv := tv.map fun v => Square5.project_point v cam.x cam.y cam.z scx scy
  o.faces.filterMap fun face =>
    (Square6.lookup_all pv face).map fun ts =>
      (((face.map fun i => (tv.getD i default).z).sum) / (face.length : ℚ),
       ts.map fun t => (t.1, t.2.1))

end Square5

/-! ## Helper lemmas -/

theorem mem_scanl_head_or_tail {α β : Type} (f : α → β → α) (a : α) (l : List β)
    (x : α) (hx : x ∈ List.scanl f a l) : x = a ∨ x ∈ (List.scanl f a l).tail := by
  cases l with
  | nil =>
      rw [List.scanl_nil] at hx ⊢
      simp at hx
      exact Or.inl hx
  | cons b t =>
      rw [List.scanl_cons] at hx ⊢
      simp only [List.singleton_append, List.mem_cons, List.tail_cons] at hx ⊢
      exact hx

theorem scanl_tail_all {α β : Type} (f : α → β → α) (P : α → Prop) (Q : β → Prop)
    (hstep : ∀ a b, Q b → P (f a b)) :
    ∀ (l : List β) (a : α), (∀ b ∈ l, Q b) → ∀ x ∈ (List.scanl f a l).tail, P x := by
  intro l
  induction l with
  | nil =>
      intro a _ x hx
      rw [List.scanl_nil] at hx
      simp at hx
  | cons b t ih =>
      intro a hQ x hx
      rw [List.scanl_cons] at hx
      simp only [List.singleton_append, List.tail_cons] at hx
      rcases mem_scanl_head_or_tail f (f a b) t x hx with h | h
      · exact h ▸ hstep a b (hQ b (List.mem_cons_self b t))
      · exact ih (f a b) (fun c hc => hQ c (List.mem_cons_of_mem b hc)) x h

theorem scanl_tail_inv {α β : Type} (f : α → β → α) (P : α → Prop) (Q : β → Prop)
    (hstep : ∀ a b, P a → Q b → P (f a b)) :
    ∀ (l : List β) (a : α), P a → (∀ b ∈ l, Q b) → ∀ x ∈ (List.scanl f a l).tail, P x := by
  intro l
  induction l with
  | nil =>
      intro a _ _ x hx
      rw [List.scanl_nil] at hx
      simp at hx
  | cons b t ih =>
      intro a hP hQ x hx
      rw [List.scanl_cons] at hx
      simp only [List.singleton_append, List.tail_cons] at hx
      have hPfab : P (f a b) := hstep a b hP (hQ b (List.mem_cons_self b t))
      rcases mem_scanl_head_or_tail f (f a b) t x hx with h | h
      · exact h ▸ hPfab
      · exact ih (f a b) hPfab (fun c hc => hQ c (List.mem_cons_of_mem b hc)) x h

/-! ## Claim C1 -/

/-- C1 counterexample: at the unclipped input — point `(0, 0, 100)`,
camera `(0, 0, 50)` (view depth `100 - 50 = 50`), screen center
`(600, 400)`, projection distance 300 — square5.py's `project_point`
returns the triple `(600, 400, 4950/4999)`, and none of its three
components equals the view depth `50`: contrary to the claim, this
variant does not return the view depth used. -/
theorem c1_counterexample :
    Square5.project_point ⟨0, 0, 100⟩ 0 0 50 600 400 300 =
      some (600, 400, 4950 / 4999) ∧
    (600 : ℚ) ≠ 100 - 50 ∧ (400 : ℚ) ≠ 100 - 50 ∧
    (4950 / 4999 : ℚ) ≠ 100 - 50 := by
  refine ⟨?_, by norm_num, by norm_num, by norm_num⟩
  norm_num [Square5.project_point, Square5.CAMERA_NEAR_CLIP,
    Square5.CAMERA_FAR_CLIP, max_def]

/-- C1 (amended): in both cited variants `project_point` returns `none`
exactly when the camera-space depth `viewDepth = point.z - camera.z`
satisfies `viewDepth < CAMERA_NEAR_CLIP` or `viewDepth > CAMERA_FAR_CLIP`
(each variant's own constants); otherwise it returns
`screenX = (point.x - camera.x) * (projectionDistance / viewDepth) +
screenCenter.x` and the analogous `screenY`.  square6.py additionally
returns the view depth as the fourth component; square5.py returns only
`(screenX, screenY, sizeFactor)` without the view depth. -/
theorem c1_amended_project_point :
    (∀ (p : Vec3) (cx cy cz scx scy d : ℚ),
      (Square6.project_point p cx cy cz scx scy d = none ↔
        (p.z - cz < Square6.CAMERA_NEAR_CLIP ∨ p.z - cz > Square6.CAMERA_FAR_CLIP)) ∧
      (Square6.CAMERA_NEAR_CLIP ≤ p.z - cz → p.z - cz ≤ Square6.CAMERA_FAR_CLIP →
        Square6.project_point p cx cy cz scx scy d =
          some ((p.x - cx) * (d / (p.z - cz)) + scx,
                (p.y - cy) * (d / (p.z - cz)) + scy,
                Square6.size_factor (p.z - cz),
                p.z - cz))) ∧
    (∀ (p : Vec3) (cx cy cz scx scy d : ℚ),
      (Square5.project_point p cx cy cz scx scy d = none ↔
        (p.z - cz < Square5.CAMERA_NEAR_CLIP ∨ p.z - cz > Square5.CAMERA_FAR_CLIP)) ∧
      (Square5.CAMERA_NEAR_CLIP ≤ p.z - cz → p.z - cz ≤ Square5.CAMERA_FAR_CLIP →
        Square5.project_point p cx cy cz scx scy d =
          some ((p.x - cx) * (d / (p.z - cz)) + scx,
                (p.y - cy) * (d / (p.z - cz)) + scy,
                max (1/10) (1 - (p.z - cz - Square5.CAMERA_NEAR_CLIP) /
                  (Square5.CAMERA_FAR_CLIP - Square5.CAMERA_NEAR_CLIP))))) := by
  constructor
  · intro p cx cy cz scx scy d
    by_cases hcond : p.z - cz < Square6.CAMERA_NEAR_CLIP ∨ p.z - cz > Square6.CAMERA_FAR_CLIP
    · refine ⟨by simp [Square6.project_point, hcond], ?_⟩
      intro h1 h2
      rcases hcond with h | h
      · exact absurd h1 (not_le.mpr h)
      · exact absurd h2 (not_le.mpr h)
    · refine ⟨by simp [Square6.project_point, hcond], ?_⟩
      intro _ _
      simp [Square6.project_point, hcond]
  · intro p cx cy cz scx scy d
    by_cases hcond : p.z - cz < Square5.CAMERA_NEAR_CLIP ∨ p.z - cz > Square5.CAMERA_FAR_CLIP
    · refine ⟨by simp [Square5.project_point, hcond], ?_⟩
      intro h1 h2
      rcases hcond with h | h
      · exact absurd h1 (not_le.mpr h)
      · exact absurd h2 (not_le.mpr h)
    · refine ⟨by simp [Square5.project_point, hcond], ?_⟩
      intro _ _
      simp [Square5.project_point, hcond]

/-- C1 witness: the spec scenario — camera at the origin, point
`(0, 0, 300)`, projection distance 300 — projects to exactly the screen
center with factor 1 in both variants. -/
theorem c1_witness :
    Square6.project_point ⟨0, 0, 300⟩ 0 0 0 600 400 300 =
      some (((0 : ℚ) - 0) * ((300 : ℚ) / (300 - 0)) + 600,
            ((0 : ℚ) - 0) * ((300 : ℚ) / (300 - 0)) + 400,
            Square6.size_factor (300 - 0),
            (300 : ℚ) - 0) ∧
    Square5.project_point ⟨0, 0, 300⟩ 0 0 0 600 400 300 =
      some (((0 : ℚ) - 0) * ((300 : ℚ) / (300 - 0)) + 600,
            ((0 : ℚ) - 0) * ((300 : ℚ) / (300 - 0)) + 400,
            max (1/10) (1 - ((300 : ℚ) - 0 - Square5.CAMERA_NEAR_CLIP) /
              (Square5.CAMERA_FAR_CLIP - Square5.CAMERA_NEAR_CLIP))) :=
  ⟨(c1_amended_project_point.1 ⟨0, 0, 300⟩ 0 0 0 600 400 300).2
      (by norm_num [Square6.CAMERA_NEAR_CLIP])
      (by norm_num [Square6.CAMERA_FAR_CLIP]),
   (c1_amended_project_point.2 ⟨0, 0, 300⟩ 0 0 0 600 400 300).2
      (by norm_num [Square5.CAMERA_NEAR_CLIP])
      (by norm_num [Square5.CAMERA_FAR_CLIP])⟩

/-! ## Claim C9 -/

/-- C9: the `size_factor` returned by square6.py's `project_point` is a
monotonically non-increasing function of the view depth, lies in
`[0.1, 1.0]` on `[CAMERA_NEAR_CLIP, CAMERA_FAR_CLIP]`, equals `1.0` at the
near clip, and is floor-clamped at `0.1` at the far clip. -/
theorem c9_size_factor_monotone_bounded :
    (∀ (p : Vec3) (cx cy cz scx scy d : ℚ) (t : ℚ × ℚ × ℚ × ℚ),
        Square6.project_point p cx cy cz scx scy d = some t →
          t.2.2.1 = Square6.size_factor (p.z - cz) ∧ t.2.2.2 = p.z - cz) ∧
    (∀ z1 z2 : ℚ, z1 ≤ z2 → Square6.size_factor z2 ≤ Square6.size_factor z1) ∧
    (∀ z : ℚ, Square6.CAMERA_NEAR_CLIP ≤ z → z ≤ Square6.CAMERA_FAR_CLIP →
        1/10 ≤ Square6.size_factor z ∧ Square6.size_factor z ≤ 1) ∧
    Square6.size_factor Square6.CAMERA_NEAR_CLIP = 1 ∧
    Square6.size_factor Square6.CAMERA_FAR_CLIP = 1/10 := by
  refine ⟨?_, ?_, ?_, ?_, ?_⟩
  · intro p cx cy cz scx scy d t h
    by_cases hcond : p.z - cz < Square6.CAMERA_NEAR_CLIP ∨ p.z - cz > Square6.CAMERA_FAR_CLIP
    · simp [Square6.project_point, hcond] at h
    · simp only [Square6.project_point] at h
      rw [if_neg hcond] at h
      have ht := Option.some.inj h
      subst ht
      exact ⟨rfl, rfl⟩
  · intro z1 z2 h
    unfold Square6.size_factor Square6.CAMERA_NEAR_CLIP Square6.CAMERA_FAR_CLIP
    apply max_le_max (le_refl _)
    have hd : (z1 - 1) / ((6000:ℚ) - 1) ≤ (z2 - 1) / ((6000:ℚ) - 1) :=
      div_le_div_of_nonneg_right (by linarith) (by norm_num)
    linarith
  · intro z h1 h2
    unfold Square6.size_factor Square6.CAMERA_NEAR_CLIP Square6.CAMERA_FAR_CLIP at *
    constructor
    · exact le_max_left _ _
    · apply max_le (by norm_num)
      have : (0:ℚ) ≤ (z - 1) / (6000 - 1) := by
        apply div_nonneg (by linarith) (by norm_num)
      linarith
  · norm_num [Square6.size_factor, Square6.CAMERA_NEAR_CLIP, Square6.CAMERA_FAR_CLIP]
  · norm_num [Square6.size_factor, Square6.CAMERA_NEAR_CLIP, Square6.CAMERA_FAR_CLIP]

/-- C9 witness: monotonicity and bounds evaluated at depths 2000 and 4000. -/
theorem c9_witness :
    Square6.size_factor 4000 ≤ Square6.size_factor 2000 ∧
    (1/10 ≤ Square6.size_factor 2000 ∧ Square6.size_factor 2000 ≤ 1) :=
  ⟨c9_size_factor_monotone_bounded.2.1 2000 4000 (by norm_num),
   c9_size_factor_monotone_bounded.2.2.1 2000
     (by norm_num [Square6.CAMERA_NEAR_CLIP])
     (by norm_num [Square6.CAMERA_FAR_CLIP])⟩

/-! ## Claim C5 -/

/-- C5 counterexample: at `angle_y = π/2` (cosine 0, sine 1) the
square4.py rotation of `(1, 0, 0)` differs from the square5.py/square6.py
rotation — the Y-axis rotations use opposite sine signs. -/
theorem c5_counterexample :
    Square4.rotate_point_3d ⟨1, 0, 0⟩ ⟨1, 0⟩ ⟨0, 1⟩ ⟨1, 0⟩ ≠
      Square6.rotate_point_3d ⟨1, 0, 0⟩ ⟨1, 0⟩ ⟨0, 1⟩ ⟨1, 0⟩ := by
  intro h
  have hz := congrArg Vec3.z h
  norm_num [Square4.rotate_point_3d, Square6.rotate_point_3d] at hz

/-- C5 (amended): square5.py's and square6.py's `rotate_point_3d` agree on
every point and angle triple; square4.py's agrees with them only up to
negating the Y-angle's sine (it rotates by the opposite Y angle), so it is
not the same function. -/
theorem c5_amended_rotation_equivalence :
    (∀ (p : Vec3) (ax ay az : Angle),
        Square5.rotate_point_3d p ax ay az = Square6.rotate_point_3d p ax ay az) ∧
    (∀ (p : Vec3) (ax ay az : Angle),
        Square4.rotate_point_3d p ax ay az =
          Square6.rotate_point_3d p ax ⟨ay.c, -ay.s⟩ az) := by
  constructor
  · intro p ax ay az
    rfl
  · intro p ax ay az
    simp only [Square4.rotate_point_3d, Square6.rotate_point_3d, Vec3.mk.injEq]
    refine ⟨by ring, by ring, by ring⟩

/-! ## Claim C4 -/

/-- C4 counterexample: in square.py, a star depth of `200.001` is inside
the reachable construction range `[1, 1000]`, and there the perspective
divisor `200 - z + 0.001` of `Star.project` is exactly zero — the
`+0.001` epsilon is the only guard and it fails. -/
theorem c4_counterexample :
    SquareOne.Star.denom ⟨0, 0, 200 + 1/1000, 1⟩ = 0 ∧
    (1 : ℚ) ≤ 200 + 1/1000 ∧ (200 + 1/1000 : ℚ) ≤ 1000 := by
  refine ⟨?_, by norm_num, by norm_num⟩
  norm_num [SquareOne.Star.denom]

/-- C4 (amended): in square6.py's `project_point` the divisor of the
perspective divide is the clip-checked view depth, so whenever a division
happens the divisor lies in `[CAMERA_NEAR_CLIP, CAMERA_FAR_CLIP]` and is
bounded away from zero; square.py's `Star.project` (and square4.py's
`project_point`) lack this check and their `200 - z + 0.001` divisor
vanishes at the reachable depth `z = 200.001`. -/
theorem c4_amended_divisor_bounded :
    ∀ (p : Vec3) (cx cy cz scx scy d : ℚ) (t : ℚ × ℚ × ℚ × ℚ),
      Square6.project_point p cx cy cz scx scy d = some t →
        Square6.CAMERA_NEAR_CLIP ≤ p.z - cz ∧ p.z - cz ≤ Square6.CAMERA_FAR_CLIP := by
  intro p cx cy cz scx scy d t h
  by_cases hcond : p.z - cz < Square6.CAMERA_NEAR_CLIP ∨ p.z - cz > Square6.CAMERA_FAR_CLIP
  · simp [Square6.project_point, hcond] at h
  · push_neg at hcond
    exact hcond

/-- C4 witness: the divisor bound instantiated at a point of depth 300. -/
theorem c4_witness :
    Square6.CAMERA_NEAR_CLIP ≤ (300:ℚ) - 0 ∧ (300:ℚ) - 0 ≤ Square6.CAMERA_FAR_CLIP :=
  c4_amended_divisor_bounded ⟨0, 0, 300⟩ 0 0 0 600 400 300
    (600, 400, Square6.size_factor 300, 300)
    (by norm_num [Square6.project_point, Square6.CAMERA_NEAR_CLIP,
          Square6.CAMERA_FAR_CLIP, Square6.size_factor])

/-! ## Claim C6 -/

/-- C6 counterexample: with `dt = 1` (so `5.0 * dt = 5 > 1`), one tick of
`warp_factor = lerp(warp_factor, 1.0, 5.0 * dt)` starting from 0 yields
`warp_factor = 5`, exceeding 1. -/
theorem c6_counterexample : (1 : ℚ) < Square6.warp_factor_seq 1 1 := by
  norm_num [Square6.warp_factor_seq, Square6.lerp]

/-- C6 (amended): provided the per-tick smoothing amount satisfies
`5 * dt ≤ 1` (frame time at most 0.2 s), the warp factor sequence starting
at 0 stays in `[0, 1]`, is monotonically non-decreasing, and its distance
to 1 contracts by the factor `1 - 5 * dt` each tick (geometric
convergence to 1). -/
theorem c6_amended_warp_convergence :
    ∀ dt : ℚ, 0 < dt → 5 * dt ≤ 1 →
      ∀ n : ℕ,
        (0 ≤ Square6.warp_factor_seq dt n ∧ Square6.warp_factor_seq dt n ≤ 1) ∧
        Square6.warp_factor_seq dt n ≤ Square6.warp_factor_seq dt (n + 1) ∧
        1 - Square6.warp_factor_seq dt (n + 1) =
          (1 - Square6.warp_factor_seq dt n) * (1 - 5 * dt) := by
  intro dt hpos h51
  have bounds : ∀ n : ℕ,
      0 ≤ Square6.warp_factor_seq dt n ∧ Square6.warp_factor_seq dt n ≤ 1 := by
    intro n
    induction n with
    | zero => norm_num [Square6.warp_factor_seq]
    | succ n ih =>
        obtain ⟨h0, h1⟩ := ih
        rw [Square6.warp_factor_seq, Square6.lerp]
        constructor
        · nlinarith
        · nlinarith
  intro n
  obtain ⟨h0, h1⟩ := bounds n
  refine ⟨⟨h0, h1⟩, ?_, ?_⟩
  · rw [Square6.warp_factor_seq, Square6.lerp]
    nlinarith
  · rw [Square6.warp_factor_seq, Square6.lerp]
    ring

/-- C6 witness: the amended convergence facts evaluated at `dt = 1/10`
after 3 ticks. -/
theorem c6_witness :
    (0 ≤ Square6.warp_factor_seq (1/10) 3 ∧ Square6.warp_factor_seq (1/10) 3 ≤ 1) ∧
    Square6.warp_factor_seq (1/10) 3 ≤ Square6.warp_factor_seq (1/10) 4 ∧
    1 - Square6.warp_factor_seq (1/10) 4 =
      (1 - Square6.warp_factor_seq (1/10) 3) * (1 - 5 * (1/10)) :=
  c6_amended_warp_convergence (1/10) (by norm_num) (by norm_num) 3

/-! ## Claim C3 -/

theorem star6_update_z_in_range (st : Square6.Star) (d w : ℚ)
    (r : Square6.StarRand) (hu0 : 0 ≤ r.u) (hu1 : r.u ≤ Square6.WORLD_SIZE / 2) :
    Square6.CAMERA_NEAR_CLIP ≤ (st.update d w r).z ∧
      (st.update d w r).z ≤ Square6.CAMERA_FAR_CLIP := by
  simp only [Square6.WORLD_SIZE] at hu1
  simp only [Square6.Star.update, Square6.CAMERA_NEAR_CLIP, Square6.CAMERA_FAR_CLIP,
    Square6.WORLD_SIZE]
  by_cases h1 : st.z + d - d * w * 20 < 1 ∨ st.z + d - d * w * 20 > 6000
  · rw [if_pos h1]
    by_cases h2 : r.rz > 6000
    · rw [if_pos h2]
      constructor <;> simp <;> linarith
    · rw [if_neg h2]
      constructor <;> simp <;> linarith
  · rw [if_neg h1]
    rcases not_or.mp h1 with ⟨ha, hb⟩
    rw [not_lt] at ha hb
    constructor <;> simp <;> linarith

theorem star5_update_z_in_range (st : Square5.Star) (d w u : ℚ)
    (hu0 : 0 ≤ u) (hu1 : u ≤ Square5.WORLD_SIZE) :
    Square5.CAMERA_NEAR_CLIP ≤ (st.update d w u).z ∧
      (st.update d w u).z ≤ Square5.CAMERA_FAR_CLIP := by
  simp only [Square5.WORLD_SIZE] at hu1
  simp only [Square5.Star.update, Square5.CAMERA_NEAR_CLIP, Square5.CAMERA_FAR_CLIP,
    Square5.WORLD_SIZE]
  by_cases h1 : st.z + d - d * w * 10 < 1 ∨ st.z + d - d * w * 10 > 5000
  · rw [if_pos h1]
    by_cases h2 : st.z + d - d * w * 10 > 5000
    · rw [if_pos h2]
      constructor <;> (try simp) <;> linarith
    · rw [if_neg h2]
      constructor <;> (try simp) <;> linarith
  · rw [if_neg h1]
    rcases not_or.mp h1 with ⟨ha, hb⟩
    rw [not_lt] at ha hb
    constructor <;> (try simp) <;> linarith

/-- C3: along any finite sequence of `Star.update` calls (with the random
draws in the ranges their `random.uniform` calls produce), the star's
depth lies in `[CAMERA_NEAR_CLIP, CAMERA_FAR_CLIP]` at the end of every
update call — in square6.py and likewise in square5.py. -/
theorem c3_star_depth_invariant :
    (∀ (st : Square6.Star) (steps : List Square6.StarStep),
        (∀ s ∈ steps, s.r.Valid) →
        ∀ st' ∈ (st.run steps).tail,
          Square6.CAMERA_NEAR_CLIP ≤ st'.z ∧ st'.z ≤ Square6.CAMERA_FAR_CLIP) ∧
    (∀ (st : Square5.Star) (steps : List Square5.StarStep),
        (∀ s ∈ steps, 0 ≤ s.u ∧ s.u ≤ Square5.WORLD_SIZE) →
        ∀ st' ∈ (st.run steps).tail,
          Square5.CAMERA_NEAR_CLIP ≤ st'.z ∧ st'.z ≤ Square5.CAMERA_FAR_CLIP) := by
  constructor
  · intro st steps hval
    simp only [Square6.Star.run]
    have hstep : ∀ (a : Square6.Star) (b : Square6.StarStep), b.r.Valid →
        Square6.CAMERA_NEAR_CLIP ≤
            (Square6.Star.update a b.delta_z b.warp_factor b.r).z ∧
          (Square6.Star.update a b.delta_z b.warp_factor b.r).z ≤
            Square6.CAMERA_FAR_CLIP :=
      fun a b hb => star6_update_z_in_range a b.delta_z b.warp_factor b.r
        hb.2.2.1 hb.2.2.2
    have h := scanl_tail_all
      (fun s stp => Square6.Star.update s stp.delta_z stp.warp_factor stp.r)
      (fun s => Square6.CAMERA_NEAR_CLIP ≤ s.z ∧ s.z ≤ Square6.CAMERA_FAR_CLIP)
      (fun stp => stp.r.Valid) hstep steps st hval
    exact h
  · intro st steps hval
    simp only [Square5.Star.run]
    have hstep : ∀ (a : Square5.Star) (b : Square5.StarStep),
        (0 ≤ b.u ∧ b.u ≤ Square5.WORLD_SIZE) →
        Square5.CAMERA_NEAR_CLIP ≤
            (Square5.Star.update a b.delta_z b.warp_factor b.u).z ∧
          (Square5.Star.update a b.delta_z b.warp_factor b.u).z ≤
            Square5.CAMERA_FAR_CLIP :=
      fun a b hb => star5_update_z_in_range a b.delta_z b.warp_factor b.u hb.1 hb.2
    have h := scanl_tail_all
      (fun s stp => Square5.Star.update s stp.delta_z stp.warp_factor stp.u)
      (fun s => Square5.CAMERA_NEAR_CLIP ≤ s.z ∧ s.z ≤ Square5.CAMERA_FAR_CLIP)
      (fun stp => 0 ≤ stp.u ∧ stp.u ≤ Square5.WORLD_SIZE) hstep steps st hval
    exact h

/-- C3 witness: one update of a star at depth 500 (valid draws) ends with
its depth inside the clip range. -/
theorem c3_witness :
    Square6.CAMERA_NEAR_CLIP ≤
        (Square6.Star.update ⟨0, 0, 500, 1, 1, 0, 255⟩ 0 0 ⟨0, 0, 400, 0⟩).z ∧
      (Square6.Star.update ⟨0, 0, 500, 1, 1, 0, 255⟩ 0 0 ⟨0, 0, 400, 0⟩).z ≤
        Square6.CAMERA_FAR_CLIP :=
  c3_star_depth_invariant.1 ⟨0, 0, 500, 1, 1, 0, 255⟩ [⟨0, 0, ⟨0, 0, 400, 0⟩⟩]
    (by
      intro s hs
      simp only [List.mem_singleton] at hs
      subst hs
      exact ⟨by norm_num [Square6.CAMERA_DEFAULT_Z],
             by norm_num [Square6.CAMERA_FAR_CLIP],
             by norm_num, by norm_num [Square6.WORLD_SIZE]⟩)
    _
    (by
      rw [Square6.Star.run, List.scanl_cons, List.scanl_nil]
      simp only [List.singleton_append, List.tail_cons]
      exact List.mem_singleton.mpr rfl)

/-! ## Claim C8 -/

/-- C8 counterexample: in square5.py, a star at depth `CAMERA_NEAR_CLIP - 1`
updated once with `delta_z = 0`, `warp_factor = 0` and the reassignment
draw `u = 2000` (inside its `random.uniform(0, WORLD_SIZE)` range) ends at
depth `2900`, which is below `CAMERA_FAR_CLIP - WORLD_SIZE / 2 = 4000` —
outside the claimed interval. -/
theorem c8_counterexample :
    (Square5.Star.update ⟨0, 0, Square5.CAMERA_NEAR_CLIP - 1, 1, 1, 0, 255⟩
        0 0 2000).z = 2900 ∧
    ¬(Square5.CAMERA_FAR_CLIP - Square5.WORLD_SIZE / 2 ≤ (2900 : ℚ)) ∧
    (0 : ℚ) ≤ 2000 ∧ (2000 : ℚ) ≤ Square5.WORLD_SIZE := by
  refine ⟨?_, by norm_num [Square5.CAMERA_FAR_CLIP, Square5.WORLD_SIZE],
    by norm_num, by norm_num [Square5.WORLD_SIZE]⟩
  norm_num [Square5.Star.update, Square5.CAMERA_NEAR_CLIP,
    Square5.CAMERA_FAR_CLIP, Square5.WORLD_SIZE, Square5.lerp]

/-- C8 (amended): a star at depth `CAMERA_NEAR_CLIP - 1` updated once with
`delta_z = 0` and `warp_factor = 0` ends with its depth reassigned into
`[CAMERA_FAR_CLIP - WORLD_SIZE / 2, CAMERA_FAR_CLIP]` in square6.py; in
square5.py the reassigned depth instead lands in
`[CAMERA_FAR_CLIP - 100 - WORLD_SIZE, CAMERA_FAR_CLIP - 100]`. -/
theorem c8_amended_reset_interval :
    (∀ (st : Square6.Star) (r : Square6.StarRand), r.Valid →
        st.z = Square6.CAMERA_NEAR_CLIP - 1 →
        Square6.CAMERA_FAR_CLIP - Square6.WORLD_SIZE / 2 ≤ (st.update 0 0 r).z ∧
          (st.update 0 0 r).z ≤ Square6.CAMERA_FAR_CLIP) ∧
    (∀ (st : Square5.Star) (u : ℚ), 0 ≤ u → u ≤ Square5.WORLD_SIZE →
        st.z = Square5.CAMERA_NEAR_CLIP - 1 →
        Square5.CAMERA_FAR_CLIP - 100 - Square5.WORLD_SIZE ≤ (st.update 0 0 u).z ∧
          (st.update 0 0 u).z ≤ Square5.CAMERA_FAR_CLIP - 100) := by
  constructor
  · intro st r hv hz
    obtain ⟨hr1, hr2, hu0, hu1⟩ := hv
    simp only [Square6.CAMERA_DEFAULT_Z, Square6.CAMERA_FAR_CLIP,
      Square6.WORLD_SIZE] at hr1 hr2 hu0 hu1
    simp only [Square6.Star.update, Square6.CAMERA_NEAR_CLIP,
      Square6.CAMERA_FAR_CLIP, Square6.WORLD_SIZE, hz]
    rw [if_pos (by norm_num)]
    rw [if_neg (not_lt.mpr (by linarith))]
    constructor <;> (try simp) <;> linarith
  · intro st u hu0 hu1 hz
    simp only [Square5.WORLD_SIZE] at hu1
    simp only [Square5.Star.update, Square5.CAMERA_NEAR_CLIP,
      Square5.CAMERA_FAR_CLIP, Square5.WORLD_SIZE, hz]
    rw [if_pos (by norm_num)]
    rw [if_neg (by norm_num)]
    constructor <;> (try simp) <;> linarith

/-- C8 witness: the square6.py scenario with reset draw `rz = 400` and
reassignment draw `u = 0`. -/
theorem c8_witness :
    Square6.CAMERA_FAR_CLIP - Square6.WORLD_SIZE / 2 ≤
        (Square6.Star.update ⟨0, 0, Square6.CAMERA_NEAR_CLIP - 1, 1, 1, 0, 255⟩
          0 0 ⟨0, 0, 400, 0⟩).z ∧
      (Square6.Star.update ⟨0, 0, Square6.CAMERA_NEAR_CLIP - 1, 1, 1, 0, 255⟩
          0 0 ⟨0, 0, 400, 0⟩).z ≤ Square6.CAMERA_FAR_CLIP :=
  c8_amended_reset_interval.1 ⟨0, 0, Square6.CAMERA_NEAR_CLIP - 1, 1, 1, 0, 255⟩
    ⟨0, 0, 400, 0⟩
    (by
      refine ⟨?_, ?_, ?_, ?_⟩ <;>
        norm_num [Square6.CAMERA_DEFAULT_Z, Square6.CAMERA_FAR_CLIP,
          Square6.WORLD_SIZE])
    rfl

/-! ## Claim C7 -/

theorem emit_loop_length_le (mk : ℕ → Square6.Particle) (maxp : ℕ) :
    ∀ (n i : ℕ) (ps : List Square6.Particle), ps.length ≤ maxp →
      (Square6.emit_loop mk maxp i n ps).length ≤ maxp := by
  intro n
  induction n with
  | zero =>
      intro i ps h
      simpa [Square6.emit_loop] using h
  | succ n ih =>
      intro i ps h
      simp only [Square6.emit_loop]
      apply ih
      by_cases hlen : ps.length < maxp
      · rw [if_pos hlen, List.length_append]
        simpa using hlen
      · rw [if_neg hlen]
        exact h

theorem particle_update_count_le (sys : Square6.ParticleSystem) (dt : ℚ)
    (pp : Vec3) (rot : Angle × Angle × Angle) (cdz : ℚ)
    (draws : ℕ → Square6.ParticleDraw)
    (h : sys.particles.length ≤ sys.max_particles) :
    (sys.update dt pp rot cdz draws).particles.length ≤
      (sys.update dt pp rot cdz draws).max_particles := by
  simp only [Square6.ParticleSystem.update]
  refine le_trans (List.length_filter_le _ _) ?_
  rw [List.length_map]
  exact emit_loop_length_le _ _ _ _ _ h

/-- C7: the emission loop never pushes the particle list past
`max_particles` at any iteration, and along any sequence of
`ParticleSystem.update` calls a system that starts within its cap stays
within its cap (a freshly constructed system starts empty). -/
theorem c7_particle_cap :
    (∀ (mk : ℕ → Square6.Particle) (maxp i n : ℕ) (ps : List Square6.Particle),
        ps.length ≤ maxp → (Square6.emit_loop mk maxp i n ps).length ≤ maxp) ∧
    (∀ (sys : Square6.ParticleSystem) (steps : List Square6.PSStep),
        sys.particles.length ≤ sys.max_particles →
        ∀ s ∈ sys.run steps, s.particles.length ≤ s.max_particles) := by
  constructor
  · intro mk maxp i n ps h
    exact emit_loop_length_le mk maxp n i ps h
  · intro sys steps h s hs
    simp only [Square6.ParticleSystem.run] at hs
    have hstep : ∀ (a : Square6.ParticleSystem) (b : Square6.PSStep),
        a.particles.length ≤ a.max_particles → True →
        (Square6.ParticleSystem.update a b.dt b.parent_pos b.rot
            b.camera_delta_z b.draws).particles.length ≤
          (Square6.ParticleSystem.update a b.dt b.parent_pos b.rot
            b.camera_delta_z b.draws).max_particles :=
      fun a b ha _ =>
        particle_update_count_le a b.dt b.parent_pos b.rot b.camera_delta_z b.draws ha
    rcases mem_scanl_head_or_tail
      (fun s stp => Square6.ParticleSystem.update s stp.dt stp.parent_pos stp.rot
        stp.camera_delta_z stp.draws) sys steps s hs with h1 | h1
    · subst h1
      exact h
    · have h2 := scanl_tail_inv
        (fun s stp => Square6.ParticleSystem.update s stp.dt stp.parent_pos stp.rot
          stp.camera_delta_z stp.draws)
        (fun s => s.particles.length ≤ s.max_particles)
        (fun _ => True)
        hstep steps sys h (fun _ _ => trivial) s h1
      exact h2

/-- C7 witness: three runs of the emission loop on an empty list with cap
2 stay at or below 2 particles. -/
theorem c7_witness :
    (Square6.emit_loop (fun _ => ⟨0, 0, 0, 0, 0, 0, 0, 0, 0⟩) 2 0 3 []).length ≤ 2 :=
  c7_particle_cap.1 (fun _ => ⟨0, 0, 0, 0, 0, 0, 0, 0, 0⟩) 2 0 3 [] (by simp)

/-! ## Claim C10 -/

theorem acc_remainder_bounds (t r : ℚ) (ht : 0 ≤ t) (hr : 0 < r) :
    0 ≤ t - (⌊t * r⌋ : ℚ) / r ∧ t - (⌊t * r⌋ : ℚ) / r < 1 / r := by
  constructor
  · rw [sub_nonneg, div_le_iff hr]
    exact Int.floor_le _
  · have h2 : t < (1 + (⌊t * r⌋ : ℚ)) / r := by
      rw [lt_div_iff hr]
      linarith [Int.lt_floor_add_one (t * r)]
    have h3 : (1 + (⌊t * r⌋ : ℚ)) / r - (⌊t * r⌋ : ℚ) / r = 1 / r := by
      ring
    linarith

theorem python_int_eq_floor (q : ℚ) (h : 0 ≤ q) : python_int q = ⌊q⌋ := by
  unfold python_int
  rw [if_neg (not_lt.mpr h)]

theorem particle_update_rate (sys : Square6.ParticleSystem) (dt : ℚ) (pp : Vec3)
    (rot : Angle × Angle × Angle) (cdz : ℚ) (draws : ℕ → Square6.ParticleDraw) :
    (sys.update dt pp rot cdz draws).emission_rate = sys.emission_rate := rfl

theorem particle_update_acc (sys : Square6.ParticleSystem) (dt : ℚ) (pp : Vec3)
    (rot : Angle × Angle × Angle) (cdz : ℚ) (draws : ℕ → Square6.ParticleDraw)
    (hr : 0 < sys.emission_rate) (ha : 0 ≤ sys.time_since_last_emission)
    (hdt : 0 ≤ dt) :
    (sys.update dt pp rot cdz draws).time_since_last_emission =
        sys.time_since_last_emission + dt -
          (⌊(sys.time_since_last_emission + dt) * sys.emission_rate⌋ : ℚ) /
            sys.emission_rate ∧
      0 ≤ (sys.update dt pp rot cdz draws).time_since_last_emission ∧
      (sys.update dt pp rot cdz draws).time_since_last_emission <
        1 / sys.emission_rate := by
  have ht0 : 0 ≤ sys.time_since_last_emission + dt := add_nonneg ha hdt
  have hfl := python_int_eq_floor _ (mul_nonneg ht0 hr.le)
  have hacc : (sys.update dt pp rot cdz draws).time_since_last_emission =
      sys.time_since_last_emission + dt -
        (⌊(sys.time_since_last_emission + dt) * sys.emission_rate⌋ : ℚ) /
          sys.emission_rate := by
    simp only [Square6.ParticleSystem.update]
    rw [hfl]
  refine ⟨hacc, ?_, ?_⟩
  · rw [hacc]
    exact (acc_remainder_bounds _ _ ht0 hr).1
  · rw [hacc]
    exact (acc_remainder_bounds _ _ ht0 hr).2

/-- C10: each `ParticleSystem.update` computes its emission count as the
truncated (= floored, the accumulator being non-negative) product of the
accumulated time and the emission rate, carries exactly the fractional
remainder in `time_since_last_emission`, and along any sequence of updates
with non-negative `dt` from an accumulator starting at 0 the accumulator
satisfies `0 ≤ time_since_last_emission < 1 / emission_rate` after every
call. -/
theorem c10_emission_accumulator :
    (∀ (sys : Square6.ParticleSystem) (dt : ℚ) (pp : Vec3)
        (rot : Angle × Angle × Angle) (cdz : ℚ) (draws : ℕ → Square6.ParticleDraw),
        0 < sys.emission_rate → 0 ≤ sys.time_since_last_emission → 0 ≤ dt →
        python_int ((sys.time_since_last_emission + dt) * sys.emission_rate) =
            ⌊(sys.time_since_last_emission + dt) * sys.emission_rate⌋ ∧
          (sys.update dt pp rot cdz draws).time_since_last_emission =
            sys.time_since_last_emission + dt -
              (⌊(sys.time_since_last_emission + dt) * sys.emission_rate⌋ : ℚ) /
                sys.emission_rate ∧
          0 ≤ (sys.update dt pp rot cdz draws).time_since_last_emission ∧
          (sys.update dt pp rot cdz draws).time_since_last_emission <
            1 / sys.emission_rate) ∧
    (∀ (sys : Square6.ParticleSystem) (steps : List Square6.PSStep),
        0 < sys.emission_rate → sys.time_since_last_emission = 0 →
        (∀ stp ∈ steps, 0 ≤ stp.dt) →
        ∀ s ∈ (sys.run steps).tail,
          0 ≤ s.time_since_last_emission ∧
            s.time_since_last_emission < 1 / s.emission_rate) := by
  constructor
  · intro sys dt pp rot cdz draws hr ha hdt
    have ht0 : 0 ≤ sys.time_since_last_emission + dt := add_nonneg ha hdt
    exact ⟨python_int_eq_floor _ (mul_nonneg ht0 hr.le),
           particle_update_acc sys dt pp rot cdz draws hr ha hdt⟩
  · intro sys steps hr h0 hdts
    simp only [Square6.ParticleSystem.run]
    have hstep : ∀ (a : Square6.ParticleSystem) (b : Square6.PSStep),
        (0 < a.emission_rate ∧ 0 ≤ a.time_since_last_emission ∧
          a.time_since_last_emission < 1 / a.emission_rate) →
        (0 ≤ b.dt) →
        (0 < (Square6.ParticleSystem.update a b.dt b.parent_pos b.rot
              b.camera_delta_z b.draws).emission_rate ∧
          0 ≤ (Square6.ParticleSystem.update a b.dt b.parent_pos b.rot
              b.camera_delta_z b.draws).time_since_last_emission ∧
          (Square6.ParticleSystem.update a b.dt b.parent_pos b.rot
              b.camera_delta_z b.draws).time_since_last_emission <
            1 / (Square6.ParticleSystem.update a b.dt b.parent_pos b.rot
              b.camera_delta_z b.draws).emission_rate) := by
      intro a b hP hb
      obtain ⟨hra, ha0, -⟩ := hP
      have hupd := particle_update_acc a b.dt b.parent_pos b.rot b.camera_delta_z
        b.draws hra ha0 hb
      rw [particle_update_rate]
      exact ⟨hra, hupd.2.1, hupd.2.2⟩
    have h := scanl_tail_inv
      (fun s stp => Square6.ParticleSystem.update s stp.dt stp.parent_pos stp.rot
        stp.camera_delta_z stp.draws)
      (fun s => 0 < s.emission_rate ∧ 0 ≤ s.time_since_last_emission ∧
        s.time_since_last_emission < 1 / s.emission_rate)
      (fun stp => 0 ≤ stp.dt)
      hstep steps sys
      ⟨hr, by rw [h0], by rw [h0]; exact one_div_pos.mpr hr⟩
      hdts
    intro s hs
    exact ⟨(h s hs).2.1, (h s hs).2.2⟩

/-- C10 witness: a system with rate 2 and empty accumulator updated with
`dt = 3/4` emits `⌊3/2⌋ = 1` particle and carries accumulator
`3/4 - 1/2 = 1/4 ∈ [0, 1/2)`. -/
theorem c10_witness :
    python_int ((((⟨⟨0, 0, 0⟩, 10, [], 2, 0⟩ :
          Square6.ParticleSystem).time_since_last_emission + 3/4) *
          (⟨⟨0, 0, 0⟩, 10, [], 2, 0⟩ : Square6.ParticleSystem).emission_rate)) =
        ⌊(((⟨⟨0, 0, 0⟩, 10, [], 2, 0⟩ :
          Square6.ParticleSystem).time_since_last_emission + 3/4) *
          (⟨⟨0, 0, 0⟩, 10, [], 2, 0⟩ : Square6.ParticleSystem).emission_rate)⌋ ∧
      ((⟨⟨0, 0, 0⟩, 10, [], 2, 0⟩ : Square6.ParticleSystem).update (3/4) ⟨0, 0, 0⟩
          (⟨1, 0⟩, ⟨1, 0⟩, ⟨1, 0⟩) 0 (fun _ => ⟨0, 0, 0, 0, 0⟩)).time_since_last_emission =
        (⟨⟨0, 0, 0⟩, 10, [], 2, 0⟩ :
          Square6.ParticleSystem).time_since_last_emission + 3/4 -
          (⌊(((⟨⟨0, 0, 0⟩, 10, [], 2, 0⟩ :
            Square6.ParticleSystem).time_since_last_emission + 3/4) *
            (⟨⟨0, 0, 0⟩, 10, [], 2, 0⟩ : Square6.ParticleSystem).emission_rate)⌋ : ℚ) /
            (⟨⟨0, 0, 0⟩, 10, [], 2, 0⟩ : Square6.ParticleSystem).emission_rate ∧
      0 ≤ ((⟨⟨0, 0, 0⟩, 10, [], 2, 0⟩ : Square6.ParticleSystem).update (3/4) ⟨0, 0, 0⟩
          (⟨1, 0⟩, ⟨1, 0⟩, ⟨1, 0⟩) 0 (fun _ => ⟨0, 0, 0, 0, 0⟩)).time_since_last_emission ∧
      ((⟨⟨0, 0, 0⟩, 10, [], 2, 0⟩ : Square6.ParticleSystem).update (3/4) ⟨0, 0, 0⟩
          (⟨1, 0⟩, ⟨1, 0⟩, ⟨1, 0⟩) 0 (fun _ => ⟨0, 0, 0, 0, 0⟩)).time_since_last_emission <
        1 / (⟨⟨0, 0, 0⟩, 10, [], 2, 0⟩ : Square6.ParticleSystem).emission_rate :=
  c10_emission_accumulator.1 ⟨⟨0, 0, 0⟩, 10, [], 2, 0⟩ (3/4) ⟨0, 0, 0⟩
    (⟨1, 0⟩, ⟨1, 0⟩, ⟨1, 0⟩) 0 (fun _ => ⟨0, 0, 0, 0, 0⟩)
    (by norm_num) (by norm_num) (by norm_num)

/-! ## Claim C2 -/

/-- C2: on a concrete scene — camera at `(0, 0, 50)`, one triangle whose
transformed vertices all sit at world `z = 100` (camera-relative view
depth 50, inside both clip ranges) — square5.py's `main` records
depth key 100, the raw transformed-world z, while square6.py's `main`
records 50, the average camera-relative view depth.  The two keys
disagree, so square5.py's face key is not the average view depth the
specification requires. -/
theorem c2_depth_key_world_z_eval :
    (Square5.collect_faces ⟨0, 0, 50⟩ 600 400
        ⟨[⟨-1, 0, 0⟩, ⟨1, 0, 0⟩, ⟨0, 1, 0⟩], [[0, 1, 2]],
         ⟨1, 0⟩, ⟨1, 0⟩, ⟨1, 0⟩, 1, (0, 0, 100)⟩).map Prod.fst = [100] ∧
    (Square6.collect_faces ⟨0, 0, 50⟩ 600 400
        ⟨[⟨-1, 0, 0⟩, ⟨1, 0, 0⟩, ⟨0, 1, 0⟩], [[0, 1, 2]],
         ⟨1, 0⟩, ⟨1, 0⟩, ⟨1, 0⟩, 1, ⟨0, 0, 100⟩⟩).map Prod.fst = [50] ∧
    ((100 - 50 : ℚ) + ((100 - 50) + (100 - 50))) / 3 = 50 ∧ (100 : ℚ) ≠ 50 := by
  refine ⟨?_, ?_, by norm_num, by norm_num⟩ <;>
    norm_num [Square5.collect_faces, Square6.collect_faces,
      Square5.Obj.transformed_vertices, Square6.Obj.transformed_vertices,
      Square5.rotate_point_3d, Square6.rotate_point_3d,
      Square5.project_point, Square6.project_point, Square6.lookup_all,
      Square5.CAMERA_NEAR_CLIP, Square5.CAMERA_FAR_CLIP, Square5.CAMERA_DEFAULT_Z,
      Square6.CAMERA_NEAR_CLIP, Square6.CAMERA_FAR_CLIP, Square6.CAMERA_DEFAULT_Z,
      Square6.size_factor, List.filterMap, List.getD]

/-! ## Auxiliary facts about the descending depth sort used by the
compositors (`list.sort(key=..., reverse=True)` model) -/

theorem insert_desc_perm {α : Type} (key : α → ℚ) (a : α) (l : List α) :
    (insert_desc key a l).Perm (a :: l) := by
  induction l with
  | nil => exact List.Perm.refl _
  | cons b t ih =>
      simp only [insert_desc]
      split_ifs with hab
      · exact (ih.cons b).trans (List.Perm.swap a b t)
      · exact List.Perm.refl _

theorem insert_desc_sorted {α : Type} (key : α → ℚ) (a : α) (l : List α)
    (h : l.Pairwise fun x y => key y ≤ key x) :
    (insert_desc key a l).Pairwise fun x y => key y ≤ key x := by
  induction l with
  | nil => simp [insert_desc]
  | cons b t ih =>
      rcases List.pairwise_cons.mp h with ⟨hb, ht⟩
      simp only [insert_desc]
      split_ifs with hab
      · refine List.pairwise_cons.mpr ⟨?_, ih ht⟩
        intro x hx
        have hx' := (insert_desc_perm key a t).mem_iff.mp hx
        rcases List.mem_cons.mp hx' with rfl | hx''
        · exact hab
        · exact hb x hx''
      · push_neg at hab
        refine List.pairwise_cons.mpr ⟨?_, h⟩
        intro x hx
        rcases List.mem_cons.mp hx with rfl | hx'
        · exact hab.le
        · exact le_trans (hb x hx') hab.le

theorem foldl_insert_desc_perm {α : Type} (key : α → ℚ) :
    ∀ (l acc : List α),
      (List.foldl (fun acc a => insert_desc key a acc) acc l).Perm (acc ++ l) := by
  intro l
  induction l with
  | nil => intro acc; simp
  | cons a t ih =>
      intro acc
      simp only [List.foldl_cons]
      have h1 := ih (insert_desc key a acc)
      have h2 := (insert_desc_perm key a acc).append_right t
      have h3 : ((a :: acc) ++ t).Perm (acc ++ a :: t) := List.perm_middle.symm
      exact h1.trans (h2.trans h3)

theorem foldl_insert_desc_sorted {α : Type} (key : α → ℚ) :
    ∀ (l acc : List α), (acc.Pairwise fun x y => key y ≤ key x) →
      (List.foldl (fun acc a => insert_desc key a acc) acc l).Pairwise
        fun x y => key y ≤ key x := by
  intro l
  induction l with
  | nil => intro acc h; exact h
  | cons a t ih =>
      intro acc h
      simp only [List.foldl_cons]
      exact ih _ (insert_desc_sorted key a acc h)

theorem sort_desc_perm {α : Type} (key : α → ℚ) (l : List α) :
    (sort_desc key l).Perm l := by
  have h := foldl_insert_desc_perm key l []
  simpa [sort_desc] using h

theorem sort_desc_sorted {α : Type} (key : α → ℚ) (l : List α) :
    (sort_desc key l).Pairwise fun x y => key y ≤ key x :=
  foldl_insert_desc_sorted key l [] List.Pairwise.nil

/-- With pairwise-distinct depth keys the modelled
`sort(key=..., reverse=True)` emits the draw list in strictly descending
key order (farthest first), as the painter's algorithm requires. -/
theorem sort_desc_strictly_descending {α : Type} (key : α → ℚ) (l : List α)
    (h : (l.map key).Nodup) :
    (sort_desc key l).Pairwise fun x y => key y < key x := by
  have hs := sort_desc_sorted key l
  have hp : ((sort_desc key l).map key).Perm (l.map key) := (sort_desc_perm key l).map key
  have hnd : ((sort_desc key l).map key).Nodup := hp.nodup_iff.mpr h
  have hne : (sort_desc key l).Pairwise fun x y => key x ≠ key y :=
    List.pairwise_map.mp hnd
  exact (hs.and hne).imp fun hxy => lt_of_le_of_ne hxy.1 (Ne.symm hxy.2)
